import Mathlib

/-!
Verification development for the interactive MCP chat client
(`client.py`) and the weather tool server (`weather.py`).

The Python source is shallowly embedded: every definition below mirrors a
function or code fragment of the source, over a model of the Python values
the code manipulates.  Strings are Lean `String`s (lists of characters =
Unicode code points, which matches Python string indexing/slicing); the
character classes of the regular expressions (`\w`, `\s`) and `str.lower`
are modelled on their ASCII behaviour.
-/

/-! ## Character-level helpers (Python `re` character classes, `str` methods) -/

/-- Model of the regex class `\w` (ASCII): letters, digits, underscore. -/
def isWordChar (c : Char) : Bool := c.isAlphanum || c = '_'

/-- Model of the regex class `\s` / `str.strip` whitespace (ASCII). -/
def isSpaceChar (c : Char) : Bool :=
  c = ' ' || c = '\t' || c = '\n' || c = '\r' || c = '\x0b' || c = '\x0c'

/-- Model of Python `str.lower` (ASCII letters). -/
def pyLower (s : String) : String := String.mk (s.data.map Char.toLower)

/-- Model of Python `str.strip()` with no arguments: remove leading and
trailing whitespace. -/
def pyStrip (s : String) : String :=
  String.mk (((s.data.dropWhile isSpaceChar).reverse.dropWhile isSpaceChar).reverse)

/-- Model of the Python slice `s[:n]` for a nonnegative bound `n`. -/
def pySlice (s : String) (n : Nat) : String := String.mk (s.data.take n)

/-- Model of Python `"\n".join`-style joining with an arbitrary separator. -/
def pyJoin (sep : String) : List String → String
  | [] => ""
  | [x] => x
  | x :: xs => x ++ sep ++ pyJoin sep xs

/-! ## Model of Python `int(·)` applied to a string

Python `int(s)` strips surrounding whitespace, accepts one optional sign,
then a nonempty digit sequence in which single underscores may separate
digits (`int("1_2") = 12`, while `int("_1")`, `int("1_")`, `int("1__2")`
raise).  `none` models a raised `ValueError`. -/

/-- Digit-sequence state machine after the first digit: digits, with single
underscores allowed only between digits. -/
def pdGo (acc : Nat) : List Char → Option Nat
  | [] => some acc
  | '_' :: c :: cs => if c.isDigit then pdGo (acc * 10 + (c.toNat - 48)) cs else none
  | c :: cs => if c.isDigit then pdGo (acc * 10 + (c.toNat - 48)) cs else none

/-- Parse a nonempty underscore-separated digit sequence. -/
def parseDigits : List Char → Option Nat
  | [] => none
  | c :: cs => if c.isDigit then pdGo (c.toNat - 48) cs else none

/-- Model of Python `int(s)` for a string argument. -/
def pyInt (s : String) : Option Int :=
  let l := ((s.data.dropWhile isSpaceChar).reverse.dropWhile isSpaceChar).reverse
  match l with
  | '+' :: r => (parseDigits r).map (fun n => (n : Int))
  | '-' :: r => (parseDigits r).map (fun n => -(n : Int))
  | r => (parseDigits r).map (fun n => (n : Int))

/-! ## `parse_kv_pairs` (client.py lines 26-44)

The source scans the tail string with
`re.finditer(r'(\w+)=("([^"]*)"|[^\s]+)', s)` and, for each match, strips
surrounding double quotes when the raw value both starts and ends with one,
coerces `true`/`false` (case-insensitively) to a boolean, otherwise
attempts `int(v)`, and finally stores the value under the key, a later
occurrence of the same key overwriting the earlier one. -/

/-- Value of a parsed argument: Python `bool`, `int` or `str`. -/
inductive PyArg where
  | vbool (b : Bool)
  | vint (n : Int)
  | vstr (s : String)
deriving DecidableEq

/-- Scan for the closing double quote of the regex alternative
`"([^"]*)"`: returns the quote-free content and the remainder after the
closing quote, or `none` when no closing quote exists. -/
def scanQuote : List Char → Option (List Char × List Char)
  | [] => none
  | c :: cs =>
    if c = '"' then some ([], cs)
    else (scanQuote cs).map (fun p => (c :: p.1, p.2))

/-- Match the value alternative `("([^"]*)"|[^\s]+)` at the current
position: the quoted alternative is preferred; otherwise a maximal nonempty
run of non-whitespace characters.  Returns the raw matched text (quotes
included for the quoted form) and the remainder. -/
def matchValue : List Char → Option (List Char × List Char)
  | [] => none
  | c :: cs =>
    if c = '"' then
      match scanQuote cs with
      | some (content, rest) => some ('"' :: (content ++ ['"']), rest)
      | none =>
        some ((c :: cs).takeWhile (fun d => !isSpaceChar d),
              (c :: cs).dropWhile (fun d => !isSpaceChar d))
    else
      let run := (c :: cs).takeWhile (fun d => !isSpaceChar d)
      if run.isEmpty then none
      else some (run, (c :: cs).dropWhile (fun d => !isSpaceChar d))

/-- Attempt a match of `(\w+)=("([^"]*)"|[^\s]+)` anchored at the head of
`l`.  Since `=` is not a word character, the greedy `\w+` never needs to
backtrack: the key is exactly the maximal word run, which must be nonempty
and be followed by `=` and a value match. -/
def matchAt (l : List Char) : Option (List Char × List Char × List Char) :=
  let key := l.takeWhile isWordChar
  if key.isEmpty then none
  else
    match l.dropWhile isWordChar with
    | '=' :: rest =>
      match matchValue rest with
      | some (raw, rest2) => some (key, raw, rest2)
      | none => none
    | _ => none

/-- Model of `re.finditer`: leftmost non-overlapping matches, advancing one
character after a failed anchor position and past the whole match after a
successful one.  The fuel argument (instantiated with the string length,
which bounds the number of scanning steps) keeps the recursion
structural. -/
def findPairsFuel : Nat → List Char → List (List Char × List Char)
  | 0, _ => []
  | _ + 1, [] => []
  | fuel + 1, c :: cs =>
    match matchAt (c :: cs) with
    | some (key, raw, rest) => (key, raw) :: findPairsFuel fuel rest
    | none => findPairsFuel fuel cs

/-- All `(key, raw value)` matches of the finditer scan. -/
def findPairs (l : List Char) : List (List Char × List Char) :=
  findPairsFuel l.length l

/-- Model of Python dict assignment `pairs[k] = v`: overwrite in place if
the key exists, else append. -/
def setKey : List (String × PyArg) → String → PyArg → List (String × PyArg)
  | [], k, v => [(k, v)]
  | (k0, v0) :: rest, k, v =>
    if k0 = k then (k0, v) :: rest else (k0, v0) :: setKey rest k v

/-- Model of `raw.strip('"')`: remove all leading and trailing double-quote
characters. -/
def pyStripQuotesAll (l : List Char) : List Char :=
  ((l.dropWhile (fun c => c = '"')).reverse.dropWhile (fun c => c = '"')).reverse

/-- Per-match value processing of `parse_kv_pairs` (client.py lines 35-42):
strip surrounding quotes when the raw text starts and ends with `"`, then
coerce `true`/`false` (any case) to a boolean, else attempt `int(v)`, else
keep the string. -/
def coerceRaw (raw : String) : PyArg :=
  let v : String :=
    if raw.data.head? = some '"' ∧ raw.data.getLast? = some '"' then
      String.mk (pyStripQuotesAll raw.data)
    else raw
  if pyLower v = "true" then PyArg.vbool true
  else if pyLower v = "false" then PyArg.vbool false
  else
    match pyInt v with
    | some n => PyArg.vint n
    | none => PyArg.vstr v

/-- Embedding of `parse_kv_pairs` (client.py lines 26-44). -/
def parse_kv_pairs (s : String) : List (String × PyArg) :=
  (findPairs s.data).foldl
    (fun pairs kv => setKey pairs (String.mk kv.1) (coerceRaw (String.mk kv.2))) []

/-! ## Model of the Python values handled by `tool_result_to_str`

`PyVal` covers the value shapes the normalizer inspects: `None`, booleans,
integers, strings, lists, plain dicts, and objects.  `PyList` and `PyDict`
are the list/dict spines (a mutual inductive, so that all functions below
are plain structural recursions that evaluate in the kernel).  For an
object `pobj hasDump dump attrs rep`: `hasDump` states whether the object
has a pydantic-style `model_dump()`/`dict()` method and `dump` is the
mapping that method returns (meaningful only when `hasDump = true`);
`attrs` is the object's `__dict__`, which is also the attribute namespace
consulted by `getattr`; `rep` is the object's `str()` representation,
carried as opaque data.  A plain dict or list has none of the attributes
`model_dump`, `dict`, `__dict__`. -/

mutual
inductive PyVal where
  | pnone
  | pbool (b : Bool)
  | pint (n : Int)
  | pstr (s : String)
  | plist (xs : PyList)
  | pdict (kvs : PyDict)
  | pobj (hasDump : Bool) (dump : PyDict) (attrs : PyDict) (rep : String)
inductive PyList where
  | nil
  | cons (v : PyVal) (rest : PyList)
inductive PyDict where
  | dnil
  | dcons (k : String) (v : PyVal) (rest : PyDict)
end

/-- Build a `PyList` from a Lean list literal. -/
def PyList.ofList : List PyVal → PyList
  | [] => .nil
  | v :: vs => .cons v (PyList.ofList vs)

/-- Build a `PyDict` from a Lean association-list literal. -/
def PyDict.ofList : List (String × PyVal) → PyDict
  | [] => .dnil
  | kv :: rest => .dcons kv.1 kv.2 (PyDict.ofList rest)

/-- Emptiness of a `PyList`. -/
def PyList.isEmpty : PyList → Bool
  | .nil => true
  | .cons _ _ => false

/-- Emptiness of a `PyDict`. -/
def PyDict.isEmpty : PyDict → Bool
  | .dnil => true
  | .dcons _ _ _ => false

/-- Model of Python truthiness for the shapes above. -/
def pyTruthy : PyVal → Bool
  | .pnone => false
  | .pbool b => b
  | .pint n => decide (n ≠ 0)
  | .pstr s => decide (s ≠ "")
  | .plist xs => !xs.isEmpty
  | .pdict kvs => !kvs.isEmpty
  | .pobj _ _ _ _ => true

/-- Model of `d.get(k)` on a dict with string keys (`none` = key absent). -/
def dictGet : PyDict → String → Option PyVal
  | .dnil, _ => none
  | .dcons k0 v rest, k => if k0 == k then some v else dictGet rest k

/-- Test whether an optional value is the Python string `s`
(Python `==` between a string and a non-string is `False`). -/
def isStrEq (v : Option PyVal) (s : String) : Bool :=
  match v with
  | some (.pstr t) => t == s
  | _ => false

/-- Decimal representation of an integer, as Python `str`/`repr` print it. -/
def intRepr (n : Int) : String :=
  match n with
  | .ofNat m => String.mk (Nat.toDigits 10 m)
  | .negSucc m => "-" ++ String.mk (Nat.toDigits 10 (m + 1))

/-! Model of Python `repr` (with `pyReprList`/`pyReprDict` for the element
renderings).  String contents are assumed to need no escaping, which holds
for every value considered here. -/
mutual
def pyRepr : PyVal → String
  | .pnone => "None"
  | .pbool true => "True"
  | .pbool false => "False"
  | .pint n => intRepr n
  | .pstr s => "'" ++ s ++ "'"
  | .plist xs => "[" ++ pyJoin ", " (pyReprList xs) ++ "]"
  | .pdict kvs => "\x7b" ++ pyJoin ", " (pyReprDict kvs) ++ "\x7d"
  | .pobj _ _ _ rep => rep
def pyReprList : PyList → List String
  | .nil => []
  | .cons v rest => pyRepr v :: pyReprList rest
def pyReprDict : PyDict → List String
  | .dnil => []
  | .dcons k v rest => ("'" ++ k ++ "': " ++ pyRepr v) :: pyReprDict rest
end

/-- Model of Python `str`: identity on strings, `repr` otherwise (for an
object, its carried representation). -/
def pyStr : PyVal → String
  | .pstr s => s
  | v => pyRepr v

/-! Model of `json.dumps(·, ensure_ascii=False)` with the default
separators (with `jsonDumpsList`/`jsonDumpsDict` for the elements).
`none` models the `TypeError` raised on a non-serializable object.  String
contents are assumed to need no JSON escaping. -/
mutual
def jsonDumps : PyVal → Option String
  | .pnone => some "null"
  | .pbool true => some "true"
  | .pbool false => some "false"
  | .pint n => some (intRepr n)
  | .pstr s => some ("\"" ++ s ++ "\"")
  | .plist xs => (jsonDumpsList xs).map (fun parts => "[" ++ pyJoin ", " parts ++ "]")
  | .pdict kvs =>
      (jsonDumpsDict kvs).map (fun parts => "\x7b" ++ pyJoin ", " parts ++ "\x7d")
  | .pobj _ _ _ _ => none
def jsonDumpsList : PyList → Option (List String)
  | .nil => some []
  | .cons v rest =>
    match jsonDumps v, jsonDumpsList rest with
    | some s, some ss => some (s :: ss)
    | _, _ => none
def jsonDumpsDict : PyDict → Option (List String)
  | .dnil => some []
  | .dcons k v rest =>
    match jsonDumps v, jsonDumpsDict rest with
    | some s, some ss => some (("\"" ++ k ++ "\": " ++ s) :: ss)
    | _, _ => none
end

/-! ## `tool_result_to_str` (client.py lines 50-90) -/

/-- Structured-mapping view of a result (client.py lines 56-62): a plain
string is handled earlier; a plain dict, list, int, bool or `None` has
none of the attributes `model_dump`, `dict`, `__dict__`, so no view is
obtained; an object yields its dump mapping when it has a dump method,
else its `__dict__`. -/
def getDataView : PyVal → Option PyDict
  | .pobj hasDump dump attrs _ => some (if hasDump then dump else attrs)
  | _ => none

/-- Content field of the mapping view (client.py line 66):
`data.get("content") or data.get("outputs") or data.get("data")`,
with Python `or` truthiness (a missing key yields `None`). -/
def contentOf (d : PyDict) : PyVal :=
  let c1 := (dictGet d "content").getD PyVal.pnone
  if pyTruthy c1 then c1
  else
    let c2 := (dictGet d "outputs").getD PyVal.pnone
    if pyTruthy c2 then c2
    else (dictGet d "data").getD PyVal.pnone

/-- Per-element text collection over a content sequence (client.py lines
68-78).  A dict element with `type == "text"` contributes its `text` value
as is (default `""`); a dict element merely containing `"text"` contributes
the stringified value; any other element contributes
`getattr(part, "text", None) or getattr(part, "content", None)`,
stringified, when that is truthy. -/
def collectTexts : PyList → List PyVal
  | .nil => []
  | .cons part rest =>
    match part with
    | .pdict kvs =>
      if isStrEq (dictGet kvs "type") "text" then
        ((dictGet kvs "text").getD (.pstr "")) :: collectTexts rest
      else
        match dictGet kvs "text" with
        | some v => .pstr (pyStr v) :: collectTexts rest
        | none => collectTexts rest
    | .pobj _ _ attrs _ =>
      let t1 := (dictGet attrs "text").getD .pnone
      let t := if pyTruthy t1 then t1 else (dictGet attrs "content").getD .pnone
      if pyTruthy t then .pstr (pyStr t) :: collectTexts rest else collectTexts rest
    | _ => collectTexts rest

/-- Model of `"\n".join(t for t in texts if t)` (client.py line 79): falsy
elements are filtered out by the generator; the join raises `TypeError`
(modelled as `none`) if any remaining element is not a string. -/
def joinTexts (texts : List PyVal) : Option String :=
  let kept := texts.filter pyTruthy
  if kept.all (fun v => match v with | .pstr _ => true | _ => false) then
    some (pyJoin "\n" (kept.map pyStr))
  else none

/-- Outcome of the content-extraction phase (client.py lines 66-81). -/
inductive ExtractRes where
  | crash
  | noText
  | found (out : String)

/-- Content-extraction phase of `tool_result_to_str`: when the content
field is a list, collect and join the text fragments and strip the result;
a nonempty string is returned, an empty one falls through, and a join
`TypeError` propagates. -/
def extractOut (d : PyDict) : ExtractRes :=
  match contentOf d with
  | .plist parts =>
    match joinTexts (collectTexts parts) with
    | none => .crash
    | some j =>
      let out := pyStrip j
      if out ≠ "" then .found out else .noText
  | _ => .noText

/-- Fallback of `tool_result_to_str` (client.py lines 83-90): compact JSON
of the mapping view truncated to 3000 characters; if serialization raises,
the default string representation of the result. -/
def jsonFallbackOrStr (d : PyDict) (res : PyVal) : String :=
  match jsonDumps (.pdict d) with
  | some j => pySlice j 3000
  | none => pyStr res

/-- Embedding of `tool_result_to_str` (client.py lines 50-90).  `none`
models an uncaught `TypeError` raised by the join on a truthy non-string
text field; every other path returns a string. -/
def tool_result_to_str (res : PyVal) : Option String :=
  match res with
  | .pstr s => some s
  | _ =>
    match getDataView res with
    | some d =>
      if !d.isEmpty then
        match extractOut d with
        | .found out => some out
        | .crash => none
        | .noText => some (jsonFallbackOrStr d res)
      else some (pyStr res)
    | none => some (pyStr res)

/-! ## `open_weather_session` (client.py lines 96-123)

The client is modelled by the capabilities the bootstrapper probes:
`sessions` holds the values of the client's sessions mapping in iteration
order (session handles are opaque ids; as Python objects they are always
truthy); `create_session = some s` states that the client has a
`create_session` attribute and `s` is the session it would create — per
the collaborator contract of the spec (`sessions` is "a mapping of
currently open sessions"), the created session is recorded in `sessions`;
`fallbackOps name` is `getattr(client, name, None)` for the connect-like
fallback operations, each modelled by its effect on the sessions
mapping. -/

structure MCPClient where
  sessions : List Nat
  create_session : Option Nat
  fallbackOps : String → Option (List Nat → List Nat)

/-- Names of the fallback connection operations, in the order the source
tries them (client.py line 112). -/
def fallbackNames : List String :=
  ["connect", "connect_all", "open_all_sessions", "ensure_sessions", "initialize"]

/-- Fallback loop of `open_weather_session` (client.py lines 112-121):
invoke each existing operation in order, and after each invocation return
the first session if the sessions mapping became non-empty.  The result
carries the outcome, the updated client, and the names of the operations
actually invoked. -/
def tryFallbacks (c : MCPClient) : List String → Except Unit Nat × MCPClient × List String
  | [] => (.error (), c, [])
  | n :: rest =>
    match c.fallbackOps n with
    | none => tryFallbacks c rest
    | some f =>
      let c2 : MCPClient := ⟨f c.sessions, c.create_session, c.fallbackOps⟩
      match c2.sessions with
      | s :: _ => (.ok s, c2, [n])
      | [] =>
        let r := tryFallbacks c2 rest
        (r.1, r.2.1, n :: r.2.2)

/-- Embedding of `open_weather_session` (client.py lines 96-123): return
the first existing session if any; otherwise create one explicitly when
the client supports it; otherwise try the fallback operations; otherwise
raise (`Except.error`, the source's `RuntimeError`).  The result carries
the outcome, the updated client, and the names of the side-effecting
operations invoked. -/
def open_weather_session (c : MCPClient) : Except Unit Nat × MCPClient × List String :=
  match c.sessions with
  | s :: _ => (.ok s, c, [])
  | [] =>
    match c.create_session with
    | some s => (.ok s, ⟨[s], c.create_session, c.fallbackOps⟩, ["create_session"])
    | none => tryFallbacks c fallbackNames

/-! ## Dispatcher classification (client.py lines 193-239) -/

/-- Classification of one trimmed input line. -/
inductive ChatAction where
  | exitA
  | clearA
  | helpA
  | direct (server : String) (tool : String) (args : List (String × PyArg))
  | agent (line : String)
deriving DecidableEq

/-- Tail group `(.*)$` of the direct-call pattern: `.` does not match a
newline and `$` also matches just before a single trailing newline, so a
tail containing `\n` anywhere except as its final character defeats the
match.  (Lines read from `input()` never contain a newline; the case is
kept for fidelity.) -/
def tailOk (tl : List Char) : Option (List Char) :=
  if '\n' ∈ tl then
    if tl.getLast? = some '\n' ∧ '\n' ∉ tl.dropLast then some tl.dropLast else none
  else some tl

/-- Model of `re.match(r'^@(\w+)\.(\w+)\b(.*)$', s)` (client.py line 221).
The greedy `\w+` groups are the maximal word runs (shortening either one
would break `\.` or `\b`, so no backtracking alternative exists), and the
`\b` after the tool name is automatically satisfied at the end of a
maximal word run. -/
def matchDirect (s : String) : Option (String × String × String) :=
  match s.data with
  | '@' :: rest =>
    let w1 := rest.takeWhile isWordChar
    if w1.isEmpty then none
    else
      match rest.dropWhile isWordChar with
      | '.' :: rest2 =>
        let w2 := rest2.takeWhile isWordChar
        if w2.isEmpty then none
        else
          match tailOk (rest2.dropWhile isWordChar) with
          | some tl => some (String.mk w1, String.mk w2, String.mk tl)
          | none => none
      | _ => none
  | _ => none

/-- Embedding of the per-line classification of the REPL loop (client.py
lines 195-239), applied to the raw line: the line is stripped, the first
three commands are matched exactly and case-insensitively in the order
exit/quit, clear, help, then the direct-call pattern is tried (its tail
parsed by `parse_kv_pairs`), and anything else goes to the agent. -/
def classify (line : String) : ChatAction :=
  let s := pyStrip line
  if pyLower s = "exit" ∨ pyLower s = "quit" then .exitA
  else if pyLower s = "clear" then .clearA
  else if pyLower s = "help" then .helpA
  else
    match matchDirect s with
    | some (server, tool, tl) => .direct server tool (parse_kv_pairs tl)
    | none => .agent s

/-! ## REPL loop and shutdown (client.py lines 159-243) -/

/-- One interaction of the loop with the outside world: `line s fails`
is a line whose processing completes — a direct tool call or agent turn
may fail (`fails = true`) but both failures are caught inside the loop
(client.py lines 225-231 and 235-239); `lineUnhandled` is a line whose
processing raises an uncaught exception (for example
`clear_conversation_history` or the join inside `tool_result_to_str`
raising); `eof` and `interrupt` model `EOFError` and `KeyboardInterrupt`
raised by `input()`. -/
inductive LoopEvent where
  | line (s : String) (collabFails : Bool)
  | lineUnhandled (s : String)
  | eof
  | interrupt

/-- How the `while True` loop terminates. -/
inductive ExitMode where
  | normal
  | exn
deriving DecidableEq

/-- Loop body iterated over the events: an exit/quit line breaks normally;
every other completed line continues the loop (caught collaborator
failures included); an uncaught exception, end-of-input or interrupt
leaves the loop exceptionally (an exhausted event list is
end-of-input). -/
def runLoop : List LoopEvent → ExitMode
  | [] => .exn
  | .eof :: _ => .exn
  | .interrupt :: _ => .exn
  | .lineUnhandled _ :: _ => .exn
  | .line s _ :: rest =>
    match classify s with
    | .exitA => .normal
    | _ => runLoop rest

/-- Observable outcome of one run of `run_memory_chat`. -/
structure RunOutcome where
  acquired : Bool
  loopEntered : Bool
  closeCalls : Nat
deriving DecidableEq

/-- Embedding of the resource discipline of `run_memory_chat` (client.py
lines 159-243).  Session acquisition happens before the `try`, so a
bootstrap failure propagates without running the `finally` block; the
pre-loop collaborator setup is abstracted as non-failing; the loop body
never modifies `client.sessions` and never calls `close_all_sessions`;
whatever way the loop exits (normal break, uncaught exception, interrupt),
the `finally` block runs and calls `close_all_sessions()` exactly when the
sessions mapping is non-empty (client.py lines 241-243). -/
def run_memory_chat (c : MCPClient) (events : List LoopEvent) : RunOutcome :=
  match open_weather_session c with
  | (.error _, _, _) => ⟨false, false, 0⟩
  | (.ok _, c2, _) =>
    let _exit := runLoop events
    ⟨true, true, if c2.sessions.isEmpty then 0 else 1⟩

/-! ## weather.py: constants and helpers -/

/-- Constant `NWS_API_BASE` (weather.py line 10). -/
def NWS_API_BASE : String := "https://api.weather.gov"

/-- Constant `MAX_CHARS` (weather.py line 12): hard cap on payload size. -/
def MAX_CHARS : Nat := 3000

/-- Constant `MAX_ITEMS` (weather.py line 13): safety bound on count. -/
def MAX_ITEMS : Int := 20

/-- Model of Python `str.upper` (ASCII letters). -/
def pyUpper (s : String) : String := String.mk (s.data.map Char.toUpper)

/-- Model of Python substring membership `needle in hay` on the character
lists. -/
def containsSub (n : List Char) : List Char → Bool
  | [] => n.isEmpty
  | c :: cs => if n.isPrefixOf (c :: cs) then true else containsSub n cs

/-- Model of Python `needle in hay` for strings. -/
def pyContains (needle hay : String) : Bool := containsSub needle.data hay.data

/-- Model of Python `int(v)` on an arbitrary value: identity on ints,
`True`/`False` become `1`/`0`, strings are parsed, and every other shape
raises (`none`). -/
def pyIntCast : PyVal → Option Int
  | .pint n => some n
  | .pbool b => some (if b then 1 else 0)
  | .pstr s => pyInt s
  | _ => none

/-- Embedding of `_to_bool` (weather.py lines 27-32). -/
def _to_bool (v : PyVal) : Bool :=
  match v with
  | .pbool b => b
  | .pstr s =>
    let t := pyLower (pyStrip s)
    t == "1" || t == "true" || t == "yes" || t == "y"
  | w => pyTruthy w

/-- Embedding of `_to_int` (weather.py lines 34-38): clamp `int(v)` into
`[1, MAX_ITEMS]`, falling back to the default when the cast raises. -/
def _to_int (v : PyVal) (default : Int) : Int :=
  match pyIntCast v with
  | some n => max 1 (min n MAX_ITEMS)
  | none => default

/-! ## weather.py: alert data model

A GeoJSON alert feature is modelled by the fields the formatters read: a
missing `properties` mapping models `f.get("properties", {})` falling back
to the default, and the four property fields are optional strings (the NWS
payload carries strings there or omits the keys). -/

/-- Properties of one alert feature, as read by the formatters. -/
structure AlertProps where
  event : Option String
  areaDesc : Option String
  ends : Option String
  expires : Option String

/-- Default (empty) properties mapping. -/
def emptyProps : AlertProps := ⟨none, none, none, none⟩

/-- One GeoJSON alert feature. -/
structure Feature where
  properties : Option AlertProps

/-- Embedding of `_brief_alert` (weather.py lines 40-48). -/
def _brief_alert (f : Feature) (include_expires : Bool) : String :=
  let p := f.properties.getD emptyProps
  let ev := p.event.getD "?"
  let area0 := p.areaDesc.getD "?"
  let area := if area0.length > 120 then pySlice area0 117 ++ "…" else area0
  let ends :=
    if p.ends.getD "" ≠ "" then p.ends.getD ""
    else if p.expires.getD "" ≠ "" then p.expires.getD ""
    else "N/A"
  let tl := if include_expires then " (until " ++ ends ++ ")" else ""
  "• " ++ ev ++ " — " ++ area ++ tl

/-! ## weather.py: `get_alerts` (lines 62-98)

The HTTP interaction is a parameter: `resp = none` models
`make_nws_request` returning `None` or a falsy payload (`if not data`);
`resp = some none` models a payload without a `"features"` key;
`resp = some (some feats)` models a payload whose `"features"` value is
the given feature list (a present-but-null value, normalized by
`data.get("features") or []`, is `some (some [])`). -/

/-- Lines built by the brief-formatting step of `get_alerts` (weather.py
line 94): the first `_to_int limit 5` filtered features, briefed. -/
def alertLines (feats : List Feature) (limit : PyVal) (include_expires : PyVal) : List String :=
  let n := _to_int limit 5
  let inc := _to_bool include_expires
  (feats.take n.toNat).map (fun f => _brief_alert f inc)

/-- Coerce-cap, brief-join and final-guard steps of `get_alerts`
(weather.py lines 89-98). -/
def alertsBody (feats : List Feature) (limit : PyVal) (include_expires : PyVal) : String :=
  let lines := alertLines feats limit include_expires
  let joined := pyJoin "\n" lines
  let out := if joined ≠ "" then joined else "No matching alerts."
  pySlice out MAX_CHARS

/-- Embedding of `get_alerts` (weather.py lines 62-98).  The `state`
argument only feeds the request URL (`(state or "").upper().strip()`,
where `state or ""` is the identity on strings); the response is the
`resp` parameter. -/
def get_alerts (state : String) (event_filter : Option String) (limit : PyVal)
    (include_expires : PyVal) (resp : Option (Option (List Feature))) : String :=
  let _url := NWS_API_BASE ++ "/alerts/active/area/" ++ pyStrip (pyUpper state)
  match resp with
  | none => "Unable to fetch alerts or no alerts found."
  | some none => "Unable to fetch alerts or no alerts found."
  | some (some feats0) =>
    if feats0.isEmpty then "No active alerts for this state."
    else
      match event_filter with
      | some ef =>
        if ef ≠ "" then
          let q := pyLower ef
          let feats := feats0.filter (fun f =>
            pyContains q (pyLower ((f.properties.getD emptyProps).event.getD "")))
          if feats.isEmpty then "No matching alerts for filter '" ++ ef ++ "'."
          else alertsBody feats limit include_expires
        else alertsBody feats0 limit include_expires
      | none => alertsBody feats0 limit include_expires

/-- A 3001-character string (longer than the 3000-character cap). -/
def longA : String := ⟨List.replicate 3001 'a'⟩

/-- A 3001-character event filter (longer than the 3000-character cap). -/
def longZ : String := ⟨List.replicate 3001 'z'⟩

/-- The content mapping of the spec's normalizer example:
`‹content: [‹type: "text", text: "hello"›, ‹type: "text", text: "world"›]›`. -/
def helloWorldContent : PyDict :=
  PyDict.ofList [("content",
    .plist (PyList.ofList
      [.pdict (PyDict.ofList [("type", .pstr "text"), ("text", .pstr "hello")]),
       .pdict (PyDict.ofList [("type", .pstr "text"), ("text", .pstr "world")])]))]

/-! ## Scanner lemmas for `parse_kv_pairs` -/

/-- An empty input yields no matches at any fuel. -/
lemma findPairsFuel_nil (n : Nat) : findPairsFuel n [] = [] := by
  cases n <;> rfl

/-- Dropping-while leaves a list unchanged when its head refutes the
predicate. -/
lemma dropWhile_eq_self_of_head {p : α → Bool} (l : List α)
    (h : ∀ a ∈ l, p a = false) : l.dropWhile p = l := by
  cases l with
  | nil => rfl
  | cons a as => simp [List.dropWhile, h a (List.mem_cons_self a as)]

/-- The closing-quote scan on a quote-free prefix finds the closing quote
right after it. -/
lemma scanQuote_append (mid rest : List Char) (h : '"' ∉ mid) :
    scanQuote (mid ++ '"' :: rest) = some (mid, rest) := by
  induction mid with
  | nil => simp [scanQuote]
  | cons c cs ih =>
    have hc : ¬(c = '"') := by
      intro e
      exact h (e ▸ List.mem_cons_self c cs)
    have ih2 := ih (fun hm => h (List.mem_cons_of_mem c hm))
    simp [scanQuote, hc, ih2]

/-- A `key="inner"` group anchored at the head matches with the quoted raw
value, for any word key and quote-free inner text. -/
lemma matchAt_quoted (k inner rest : List Char)
    (hk : k ≠ []) (hw : ∀ c ∈ k, isWordChar c = true) (hq : '"' ∉ inner) :
    matchAt (k ++ '=' :: '"' :: (inner ++ '"' :: rest)) =
      some (k, '"' :: (inner ++ ['"']), rest) := by
  have heq : isWordChar '=' = false := by decide
  have htake : (k ++ '=' :: '"' :: (inner ++ '"' :: rest)).takeWhile isWordChar = k := by
    rw [List.takeWhile_append_of_pos hw]
    simp [List.takeWhile, heq]
  have hdrop : (k ++ '=' :: '"' :: (inner ++ '"' :: rest)).dropWhile isWordChar =
      '=' :: '"' :: (inner ++ '"' :: rest) := by
    rw [List.dropWhile_append_of_pos hw]
    simp [List.dropWhile, heq]
  unfold matchAt
  rw [htake, hdrop]
  simp [hk, matchValue, scanQuote_append inner rest hq]

/-- A `key=value` group with an unquoted value anchored at the head of the
whole input matches with the raw value, for any word key and any nonempty
whitespace-free value not starting with a double quote. -/
lemma matchAt_unquoted (k v : List Char)
    (hk : k ≠ []) (hw : ∀ c ∈ k, isWordChar c = true)
    (hv : v ≠ []) (hns : ∀ c ∈ v, isSpaceChar c = false)
    (hq : v.head? ≠ some '"') :
    matchAt (k ++ '=' :: v) = some (k, v, []) := by
  have heq : isWordChar '=' = false := by decide
  have htake : (k ++ '=' :: v).takeWhile isWordChar = k := by
    rw [List.takeWhile_append_of_pos hw]
    simp [List.takeWhile, heq]
  have hdrop : (k ++ '=' :: v).dropWhile isWordChar = '=' :: v := by
    rw [List.dropWhile_append_of_pos hw]
    simp [List.dropWhile, heq]
  unfold matchAt
  rw [htake, hdrop]
  obtain ⟨c, cs, rfl⟩ := List.exists_cons_of_ne_nil hv
  have hc : ¬(c = '"') := by
    intro e
    rw [e] at hq
    simp at hq
  have hns2 : ∀ c_1 ∈ c :: cs, (fun d => !isSpaceChar d) c_1 = true := by
    intro d hd
    simp [hns d hd]
  have htakev : (c :: cs).takeWhile (fun d => !isSpaceChar d) = c :: cs := by
    have := @List.takeWhile_append_of_pos Char (fun d => !isSpaceChar d) (c :: cs) [] hns2
    simpa using this
  have hdropv : (c :: cs).dropWhile (fun d => !isSpaceChar d) = [] := by
    have := @List.dropWhile_append_of_pos Char (fun d => !isSpaceChar d) (c :: cs) [] hns2
    simpa using this
  simp [hk, matchValue, hc, htakev, hdropv]

/-- When the anchored match consumes the entire input, the finditer scan
yields exactly that one match. -/
lemma findPairs_of_matchAt_nil (l k raw : List Char)
    (h : matchAt l = some (k, raw, [])) (hl : l ≠ []) :
    findPairs l = [(k, raw)] := by
  obtain ⟨c, cs, rfl⟩ := List.exists_cons_of_ne_nil hl
  show findPairsFuel (c :: cs).length (c :: cs) = _
  rw [List.length_cons]
  simp [findPairsFuel, h, findPairsFuel_nil]

/-- A list ending in an appended singleton has that element as its last. -/
lemma getLast?_append_single (l : List α) (a : α) : (l ++ [a]).getLast? = some a := by
  induction l with
  | nil => rfl
  | cons b bs ih =>
    rw [List.cons_append]
    cases hbs : bs ++ [a] with
    | nil => simp at hbs
    | cons x xs =>
      rw [List.getLast?_cons_cons]
      rw [← hbs, ih]

/-- Stripping all surrounding double quotes from a quote-wrapped,
quote-free text yields exactly that text. -/
lemma stripAll_wrap (mid : List Char) (h : '"' ∉ mid) :
    pyStripQuotesAll ('"' :: (mid ++ ['"'])) = mid := by
  unfold pyStripQuotesAll
  have h1 : List.dropWhile (fun c => c = '"') ('"' :: (mid ++ ['"'])) =
      List.dropWhile (fun c => c = '"') (mid ++ ['"']) := by
    simp [List.dropWhile]
  rw [h1]
  cases mid with
  | nil => simp [List.dropWhile]
  | cons c cs =>
    have hc : ¬(c = '"') := fun e => h (e ▸ List.mem_cons_self c cs)
    have h2 : List.dropWhile (fun x => x = '"') ((c :: cs) ++ ['"']) = (c :: cs) ++ ['"'] := by
      simp [List.dropWhile, hc]
    rw [h2, List.reverse_append]
    have h3 : List.dropWhile (fun x => x = '"') (['"'].reverse ++ (c :: cs).reverse) =
        List.dropWhile (fun x => x = '"') ((c :: cs).reverse) := by
      simp [List.dropWhile]
    rw [h3, dropWhile_eq_self_of_head _ ?hmem, List.reverse_reverse]
    case hmem =>
      intro a ha
      have : a ∈ c :: cs := List.mem_reverse.mp ha
      simp
      intro e
      exact h (e ▸ this)

/-- Per-value coercion on a quote-wrapped, quote-free text agrees with the
coercion of the bare text: quoting does not exempt a value from the
boolean/integer coercion. -/
lemma coerceRaw_quoted_list (il : List Char) (hq : '"' ∉ il) :
    coerceRaw ⟨'"' :: (il ++ ['"'])⟩ = coerceRaw ⟨il⟩ := by
  unfold coerceRaw
  have hL : (String.mk ('"' :: (il ++ ['"']))).data.head? = some '"' ∧
      (String.mk ('"' :: (il ++ ['"']))).data.getLast? = some '"' := by
    refine ⟨rfl, ?_⟩
    show ('"' :: (il ++ ['"'])).getLast? = some '"'
    rw [show '"' :: (il ++ ['"']) = ('"' :: il) ++ ['"'] by simp, getLast?_append_single]
  have hR : ¬((String.mk il).data.head? = some '"' ∧
      (String.mk il).data.getLast? = some '"') := by
    rintro ⟨h1, _⟩
    cases il with
    | nil => simp at h1
    | cons c cs =>
      have : c = '"' := by simpa using h1
      exact hq (this ▸ List.mem_cons_self c cs)
  rw [if_pos hL, if_neg hR]
  rw [show (String.mk ('"' :: (il ++ ['"']))).data = '"' :: (il ++ ['"']) from rfl]
  rw [stripAll_wrap il hq]

/-- A single `key="inner"` tail parses to the key mapped to the coercion
of the bare inner text: the quoted value is quote-stripped and then
boolean/integer-coerced exactly like an unquoted one. -/
lemma parse_quoted (k inner : String) (hk : k.data ≠ [])
    (hw : ∀ c ∈ k.data, isWordChar c = true) (hq : '"' ∉ inner.data) :
    parse_kv_pairs (k ++ "=\"" ++ inner ++ "\"") = [(k, coerceRaw inner)] := by
  obtain ⟨kl⟩ := k
  obtain ⟨il⟩ := inner
  have hdata : ((⟨kl⟩ : String) ++ "=\"" ++ ⟨il⟩ ++ "\"").data =
      kl ++ '=' :: '"' :: (il ++ '"' :: []) := by
    simp [String.data_append]
  have hmatch := matchAt_quoted kl il [] hk hw hq
  have hne : kl ++ '=' :: '"' :: (il ++ '"' :: []) ≠ [] := by
    simp
  have hfind := findPairs_of_matchAt_nil _ _ _ hmatch hne
  unfold parse_kv_pairs
  rw [hdata, hfind]
  show setKey [] ⟨kl⟩ (coerceRaw ⟨'"' :: (il ++ ['"'])⟩) = _
  rw [coerceRaw_quoted_list il hq]
  rfl

/-- A single `key=value` tail with an unquoted value parses to the key
mapped to the coercion of the value. -/
lemma parse_unquoted (k v : String) (hk : k.data ≠ [])
    (hw : ∀ c ∈ k.data, isWordChar c = true)
    (hv : v.data ≠ []) (hns : ∀ c ∈ v.data, isSpaceChar c = false)
    (hq : v.data.head? ≠ some '"') :
    parse_kv_pairs (k ++ "=" ++ v) = [(k, coerceRaw v)] := by
  obtain ⟨kl⟩ := k
  obtain ⟨vl⟩ := v
  have hdata : ((⟨kl⟩ : String) ++ "=" ++ ⟨vl⟩).data = kl ++ '=' :: vl := by
    simp [String.data_append]
  have hmatch := matchAt_unquoted kl vl hk hw hv hns hq
  have hne : kl ++ '=' :: vl ≠ [] := by simp
  have hfind := findPairs_of_matchAt_nil _ _ _ hmatch hne
  unfold parse_kv_pairs
  rw [hdata, hfind]
  rfl

/-! ## Session bootstrap lemmas -/

/-- If the sessions mapping is empty and every present fallback operation
maps an empty mapping to an empty mapping, the fallback loop raises and
leaves the mapping empty. -/
lemma tryFallbacks_error_of_empty :
    ∀ (names : List String) (c : MCPClient), c.sessions = [] →
    (∀ n ∈ names, ∀ f, c.fallbackOps n = some f → f [] = []) →
    (tryFallbacks c names).1 = Except.error () ∧
      ((tryFallbacks c names).2.1).sessions = [] := by
  intro names
  induction names with
  | nil =>
    intro c h1 _
    exact ⟨rfl, h1⟩
  | cons n rest ih =>
    intro c h1 h2
    cases hop : c.fallbackOps n with
    | none =>
      have := ih c h1 (fun m hm f hf => h2 m (List.mem_cons_of_mem n hm) f hf)
      simpa [tryFallbacks, hop] using this
    | some f =>
      have hf0 : f c.sessions = [] := by
        rw [h1]
        exact h2 n (List.mem_cons_self n rest) f hop
      have hrec := ih ⟨f c.sessions, c.create_session, c.fallbackOps⟩ hf0
        (fun m hm g hg => h2 m (List.mem_cons_of_mem n hm) g hg)
      simp only [tryFallbacks, hop, hf0]
      rw [hf0] at hrec
      exact hrec

/-- The fallback loop succeeds only with a non-empty sessions mapping. -/
lemma tryFallbacks_ok_nonempty :
    ∀ (names : List String) (c : MCPClient) (s : Nat),
    (tryFallbacks c names).1 = Except.ok s →
    ((tryFallbacks c names).2.1).sessions ≠ [] := by
  intro names
  induction names with
  | nil =>
    intro c s h
    simp [tryFallbacks] at h
  | cons n rest ih =>
    intro c s h
    cases hop : c.fallbackOps n with
    | none =>
      rw [show tryFallbacks c (n :: rest) = tryFallbacks c rest by
        simp [tryFallbacks, hop]] at h ⊢
      exact ih c s h
    | some f =>
      cases hfs : f c.sessions with
      | cons a as =>
        simp only [tryFallbacks, hop, hfs] at h ⊢
        simp [hfs]
      | nil =>
        simp only [tryFallbacks, hop, hfs] at h ⊢
        exact ih _ s h

/-- A successful bootstrap leaves the client with a non-empty sessions
mapping. -/
lemma open_ok_nonempty (c : MCPClient) (s : Nat)
    (h : (open_weather_session c).1 = Except.ok s) :
    ((open_weather_session c).2.1).sessions ≠ [] := by
  cases hs : c.sessions with
  | cons a as => simp [open_weather_session, hs]
  | nil =>
    cases hcs : c.create_session with
    | some s0 => simp [open_weather_session, hs, hcs]
    | none =>
      rw [show open_weather_session c = tryFallbacks c fallbackNames by
        simp [open_weather_session, hs, hcs]] at h ⊢
      exact tryFallbacks_ok_nonempty _ c s h

/-- C4: however the dispatcher loop exits (normal exit/quit input,
end-of-input, an unhandled error inside the loop, or an interrupt during
input), the session release operation `close_all_sessions` is invoked
exactly once if a session was acquired, and zero times otherwise. -/
theorem C4_shutdown_exactly_once (c : MCPClient) (events : List LoopEvent) :
    (run_memory_chat c events).closeCalls =
      if (run_memory_chat c events).acquired then 1 else 0 := by
  rcases hr : open_weather_session c with ⟨r, c2, log⟩
  cases r with
  | error e => simp [run_memory_chat, hr]
  | ok s =>
    have hne : c2.sessions ≠ [] := by
      have h2 := open_ok_nonempty c s (by rw [hr])
      rw [hr] at h2
      exact h2
    rcases hcs : c2.sessions with _ | ⟨a, as⟩
    · exact absurd hcs hne
    · simp [run_memory_chat, hr, hcs]

/-- C5: the session bootstrapper fails (with the source's `RuntimeError`,
the spec's `NoSessionError`) when the sessions mapping is empty, the
client has no create-session operation, and every fallback connection
strategy leaves the sessions mapping empty; in that case no session is
returned and the loop is never entered. -/
theorem C5_bootstrap_failure (c : MCPClient)
    (h1 : c.sessions = [])
    (h2 : c.create_session = none)
    (h3 : ∀ n ∈ fallbackNames, ∀ f, c.fallbackOps n = some f → f [] = []) :
    (open_weather_session c).1 = Except.error () ∧
    ∀ events : List LoopEvent,
      (run_memory_chat c events).loopEntered = false ∧
      (run_memory_chat c events).closeCalls = 0 := by
  have herr : (open_weather_session c).1 = Except.error () := by
    rw [show open_weather_session c = tryFallbacks c fallbackNames by
      simp [open_weather_session, h1, h2]]
    exact (tryFallbacks_error_of_empty fallbackNames c h1 h3).1
  refine ⟨herr, ?_⟩
  intro events
  rcases hr : open_weather_session c with ⟨r, c2, log⟩
  rw [hr] at herr
  cases r with
  | error e => simp [run_memory_chat, hr]
  | ok s => simp at herr

/-- C5 witness: a concrete client with empty sessions, no create-session
operation, and one fallback operation (`connect`) that leaves the sessions
mapping unchanged makes the bootstrapper fail. -/
theorem C5_bootstrap_failure_witness :
    (open_weather_session
      ⟨[], none, fun n => if n = "connect" then some (fun s => s) else none⟩).1 =
      Except.error () := by
  refine (C5_bootstrap_failure _ rfl rfl ?_).1
  intro n _ f hf
  by_cases hc : n = "connect"
  · rw [hc] at hf
    simp at hf
    rw [← hf]
  · simp [hc] at hf

/-- C6: whenever the client's sessions mapping is non-empty, the session
bootstrapper returns the first existing session, with the client unchanged
and no creation or connection operation invoked (empty call log). -/
theorem C6_first_session_no_calls (c : MCPClient) (s : Nat) (rest : List Nat)
    (h : c.sessions = s :: rest) :
    open_weather_session c = (Except.ok s, c, []) := by
  unfold open_weather_session
  rw [h]

/-- C6 witness: a concrete client holding two sessions (and offering both a
create-session operation and fallback operations) yields the first session
with no operation invoked. -/
theorem C6_first_session_no_calls_witness :
    open_weather_session ⟨[7, 8], some 9, fun _ => some (fun s => s)⟩ =
      (Except.ok 7, ⟨[7, 8], some 9, fun _ => some (fun s => s)⟩, []) :=
  C6_first_session_no_calls _ 7 [8] rfl

/-- C7: dispatcher classification is total and mutually exclusive — every
trimmed input line maps to exactly one action (totality is the last
disjunction together with the distinctness of the `ChatAction`
constructors; the first three characterizations are exact and
case-insensitive, checked in the order exit/quit, clear, help before the
direct-call pattern) — and `"@weather.ping"` classifies as a direct call
with server `weather`, tool `ping`, and empty arguments. -/
theorem C7_classification :
    (∀ s : String, classify s = ChatAction.exitA ↔
      (pyLower (pyStrip s) = "exit" ∨ pyLower (pyStrip s) = "quit")) ∧
    (∀ s : String, classify s = ChatAction.clearA ↔ pyLower (pyStrip s) = "clear") ∧
    (∀ s : String, classify s = ChatAction.helpA ↔ pyLower (pyStrip s) = "help") ∧
    (∀ s : String,
      classify s = ChatAction.exitA ∨ classify s = ChatAction.clearA ∨
      classify s = ChatAction.helpA ∨
      (∃ sv tool args, classify s = ChatAction.direct sv tool args) ∨
      (∃ l, classify s = ChatAction.agent l)) ∧
    classify "@weather.ping" = ChatAction.direct "weather" "ping" [] := by
  have hexit : ∀ s : String, classify s = ChatAction.exitA ↔
      (pyLower (pyStrip s) = "exit" ∨ pyLower (pyStrip s) = "quit") := by
    intro s
    by_cases h1 : (pyLower (pyStrip s) = "exit" ∨ pyLower (pyStrip s) = "quit")
    · simp [classify, h1]
    · simp only [classify, if_neg h1]
      constructor
      · intro h
        by_cases h2 : pyLower (pyStrip s) = "clear"
        · rw [if_pos h2] at h
          exact absurd h (by simp)
        rw [if_neg h2] at h
        by_cases h3 : pyLower (pyStrip s) = "help"
        · rw [if_pos h3] at h
          exact absurd h (by simp)
        rw [if_neg h3] at h
        cases hm : matchDirect (pyStrip s) with
        | some t =>
          obtain ⟨sv, tool, tl⟩ := t
          simp [hm] at h
        | none => simp [hm] at h
      · intro h
        exact absurd h h1
  have hclear : ∀ s : String, classify s = ChatAction.clearA ↔
      pyLower (pyStrip s) = "clear" := by
    intro s
    by_cases h2 : pyLower (pyStrip s) = "clear"
    · have h1 : ¬(pyLower (pyStrip s) = "exit" ∨ pyLower (pyStrip s) = "quit") := by
        rw [h2]
        decide
      simp [classify, h1, h2]
    · constructor
      · intro h
        by_cases h1 : (pyLower (pyStrip s) = "exit" ∨ pyLower (pyStrip s) = "quit")
        · simp [classify, h1] at h
        simp only [classify, if_neg h1, if_neg h2] at h
        by_cases h3 : pyLower (pyStrip s) = "help"
        · rw [if_pos h3] at h
          exact absurd h (by simp)
        rw [if_neg h3] at h
        cases hm : matchDirect (pyStrip s) with
        | some t =>
          obtain ⟨sv, tool, tl⟩ := t
          simp [hm] at h
        | none => simp [hm] at h
      · intro h
        exact absurd h h2
  have hhelp : ∀ s : String, classify s = ChatAction.helpA ↔
      pyLower (pyStrip s) = "help" := by
    intro s
    by_cases h3 : pyLower (pyStrip s) = "help"
    · have h1 : ¬(pyLower (pyStrip s) = "exit" ∨ pyLower (pyStrip s) = "quit") := by
        rw [h3]
        decide
      have h2 : ¬(pyLower (pyStrip s) = "clear") := by
        rw [h3]
        decide
      simp [classify, h1, h2, h3]
    · constructor
      · intro h
        by_cases h1 : (pyLower (pyStrip s) = "exit" ∨ pyLower (pyStrip s) = "quit")
        · simp [classify, h1] at h
        by_cases h2 : pyLower (pyStrip s) = "clear"
        · simp [classify, h1, h2] at h
        simp only [classify, if_neg h1, if_neg h2, if_neg h3] at h
        cases hm : matchDirect (pyStrip s) with
        | some t =>
          obtain ⟨sv, tool, tl⟩ := t
          simp [hm] at h
        | none => simp [hm] at h
      · intro h
        exact absurd h h3
  have htotal : ∀ s : String,
      classify s = ChatAction.exitA ∨ classify s = ChatAction.clearA ∨
      classify s = ChatAction.helpA ∨
      (∃ sv tool args, classify s = ChatAction.direct sv tool args) ∨
      (∃ l, classify s = ChatAction.agent l) := by
    intro s
    by_cases h1 : (pyLower (pyStrip s) = "exit" ∨ pyLower (pyStrip s) = "quit")
    · exact Or.inl (by simp [classify, h1])
    by_cases h2 : pyLower (pyStrip s) = "clear"
    · exact Or.inr (Or.inl (by simp [classify, h1, h2]))
    by_cases h3 : pyLower (pyStrip s) = "help"
    · exact Or.inr (Or.inr (Or.inl (by simp [classify, h1, h2, h3])))
    cases hm : matchDirect (pyStrip s) with
    | some t =>
      obtain ⟨sv, tool, tl⟩ := t
      exact Or.inr (Or.inr (Or.inr (Or.inl ⟨sv, tool, parse_kv_pairs tl,
        by simp [classify, h1, h2, h3, hm]⟩)))
    | none =>
      exact Or.inr (Or.inr (Or.inr (Or.inr ⟨pyStrip s,
        by simp [classify, h1, h2, h3, hm]⟩)))
  exact ⟨hexit, hclear, hhelp, htotal, by decide⟩

/-- C7 witness: the case-insensitive exit characterization applied to the
concrete line `"QUIT"`. -/
theorem C7_classification_witness : classify "QUIT" = ChatAction.exitA :=
  (C7_classification.1 "QUIT").mpr (by decide)

/-! ## Normalizer lemmas and claims C2, C3 -/

/-- A slice is no longer than its bound. -/
lemma pySlice_length_le (s : String) (n : Nat) : (pySlice s n).length ≤ n := by
  show (s.data.take n).length ≤ n
  rw [List.length_take]
  exact min_le_left n s.data.length

/-- C2 counterexample: on a 3001-character string input the normalizer
returns the string verbatim, so the output exceeds the 3000-character cap
the claim asserts for every input. -/
theorem C2_counterexample :
    tool_result_to_str (PyVal.pstr longA) = some longA ∧ MAX_CHARS < longA.length := by
  constructor
  · rfl
  · show 3000 < (List.replicate 3001 'a').length
    rw [List.length_replicate]
    decide

/-- C2 (amended): the normalizer caps only its compact-JSON fallback at
3000 characters; a result that is already a string is returned verbatim at
any length, and every returned string is either within the cap or is the
verbatim string input, the extracted content text, or the default string
representation of the result, none of which is truncated. -/
theorem C2_amended_cap_only_on_json_fallback :
    (∀ s : String, tool_result_to_str (PyVal.pstr s) = some s) ∧
    (∀ (res : PyVal) (out : String), tool_result_to_str res = some out →
      out.length ≤ MAX_CHARS ∨ res = PyVal.pstr out ∨
      (∃ d, getDataView res = some d ∧ extractOut d = ExtractRes.found out) ∨
      out = pyStr res) := by
  constructor
  · intro s
    rfl
  · intro res out h
    cases res with
    | pstr s =>
      refine Or.inr (Or.inl ?_)
      simp [tool_result_to_str] at h
      rw [h]
    | pobj hasDump dump attrs rep =>
      have hview : getDataView (PyVal.pobj hasDump dump attrs rep) =
          some (if hasDump then dump else attrs) := rfl
      simp only [tool_result_to_str, hview] at h
      by_cases hd : (if hasDump then dump else attrs).isEmpty
      · simp [hd] at h
        exact Or.inr (Or.inr (Or.inr h.symm))
      · simp only [hd, Bool.not_false, if_pos] at h
        cases hex : extractOut (if hasDump then dump else attrs) with
        | found o =>
          rw [hex] at h
          simp at h
          exact Or.inr (Or.inr (Or.inl ⟨_, hview, h ▸ hex⟩))
        | crash =>
          rw [hex] at h
          simp at h
        | noText =>
          rw [hex] at h
          simp at h
          cases hj : jsonDumps (PyVal.pdict (if hasDump then dump else attrs)) with
          | some j =>
            left
            rw [← h]
            show (jsonFallbackOrStr _ _).length ≤ MAX_CHARS
            unfold jsonFallbackOrStr
            rw [hj]
            exact pySlice_length_le j MAX_CHARS
          | none =>
            refine Or.inr (Or.inr (Or.inr ?_))
            rw [← h]
            show jsonFallbackOrStr _ _ = _
            unfold jsonFallbackOrStr
            rw [hj]
    | pnone =>
      refine Or.inr (Or.inr (Or.inr ?_))
      simp [tool_result_to_str, getDataView] at h
      exact h.symm
    | pbool b =>
      refine Or.inr (Or.inr (Or.inr ?_))
      simp [tool_result_to_str, getDataView] at h
      exact h.symm
    | pint n =>
      refine Or.inr (Or.inr (Or.inr ?_))
      simp [tool_result_to_str, getDataView] at h
      exact h.symm
    | plist xs =>
      refine Or.inr (Or.inr (Or.inr ?_))
      simp [tool_result_to_str, getDataView] at h
      exact h.symm
    | pdict kvs =>
      refine Or.inr (Or.inr (Or.inr ?_))
      simp [tool_result_to_str, getDataView] at h
      exact h.symm

/-- C2 witness: the characterization applied to the concrete string result
`"hi"`. -/
theorem C2_amended_witness :
    "hi".length ≤ MAX_CHARS ∨ PyVal.pstr "hi" = PyVal.pstr "hi" ∨
      (∃ d, getDataView (PyVal.pstr "hi") = some d ∧ extractOut d = ExtractRes.found "hi") ∨
      "hi" = pyStr (PyVal.pstr "hi") :=
  C2_amended_cap_only_on_json_fallback.2 (PyVal.pstr "hi") "hi" rfl

/-- C3 counterexample: a plain mapping value has none of the attributes
`model_dump`, `dict`, `__dict__`, so the normalizer never obtains a
mapping view from it and falls through to `str(res)` — not to the joined
text `"hello\nworld"` the claim asserts. -/
theorem C3_counterexample :
    tool_result_to_str (PyVal.pdict helloWorldContent) =
      some "\x7b'content': [\x7b'type': 'text', 'text': 'hello'\x7d, \x7b'type': 'text', 'text': 'world'\x7d]\x7d" ∧
    tool_result_to_str (PyVal.pdict helloWorldContent) ≠ some "hello\nworld" := by
  constructor
  · rfl
  · decide

/-- C3 (amended): applying the normalizer to a result object whose mapping
view (obtained from `model_dump`/`dict`/`__dict__`) is
`‹content: [‹type: "text", text: "hello"›, ‹type: "text", text: "world"›]›`
returns `"hello\nworld"`, whatever the object's other attributes and
string representation are; a plain mapping value, having no such view,
falls through to its default string representation instead. -/
theorem C3_amended_normalizer_example (attrs : PyDict) (rep : String) :
    tool_result_to_str (PyVal.pobj true helloWorldContent attrs rep) =
      some "hello\nworld" := rfl

/-! ## Claims C1, C8, C9 (the argument parser) -/

/-- C1 counterexample: the double-quoted value `"true"` does not stay a
plain string — the source strips the quotes before coercing, so the value
becomes the boolean `True`, contradicting the claim that quoted values
never undergo boolean/integer coercion. -/
theorem C1_counterexample :
    parse_kv_pairs "k=\"true\"" = [("k", PyArg.vbool true)] ∧
    PyArg.vbool true ≠ PyArg.vstr "true" := by decide

/-- C1 (amended): for every tail, a value is coerced after quote
stripping — a double-quoted value has its surrounding quotes removed and
the remaining text is then coerced exactly like an unquoted value
(case-insensitive `true`/`false` becomes a boolean, an integer-parseable
text becomes an integer, every other text remains a string), so quoting
does not exempt a value from coercion.  The first two parts cover a
quoted and an unquoted `key=value` tail symbolically; the last four
evaluate the shared coercion on representative texts. -/
theorem C1_amended_coercion_after_quote_strip :
    (∀ k inner : String, k.data ≠ [] → (∀ c ∈ k.data, isWordChar c = true) →
      '"' ∉ inner.data →
      parse_kv_pairs (k ++ "=\"" ++ inner ++ "\"") = [(k, coerceRaw inner)]) ∧
    (∀ k v : String, k.data ≠ [] → (∀ c ∈ k.data, isWordChar c = true) →
      v.data ≠ [] → (∀ c ∈ v.data, isSpaceChar c = false) → v.data.head? ≠ some '"' →
      parse_kv_pairs (k ++ "=" ++ v) = [(k, coerceRaw v)]) ∧
    coerceRaw "true" = PyArg.vbool true ∧
    coerceRaw "FALSE" = PyArg.vbool false ∧
    coerceRaw "42" = PyArg.vint 42 ∧
    coerceRaw "CA" = PyArg.vstr "CA" := by
  refine ⟨parse_quoted, parse_unquoted, ?_, ?_, ?_, ?_⟩ <;> decide

/-- C1 witness: the symbolic parts applied to the concrete tails
`flag="true"` and `limit=8`. -/
theorem C1_amended_witness :
    parse_kv_pairs "flag=\"true\"" = [("flag", coerceRaw "true")] ∧
    parse_kv_pairs "limit=8" = [("limit", coerceRaw "8")] := by
  constructor
  · exact C1_amended_coercion_after_quote_strip.1 "flag" "true"
      (by decide) (by decide) (by decide)
  · exact C1_amended_coercion_after_quote_strip.2.1 "limit" "8"
      (by decide) (by decide) (by decide) (by decide) (by decide)

/-- C8: when the same key appears multiple times in a parsed tail, the
last occurrence wins — `parse_kv_pairs "a=1 a=2"` yields the mapping
`‹a: 2›`, the later match overwriting the earlier one in place. -/
theorem C8_last_occurrence_wins :
    parse_kv_pairs "a=1 a=2" = [("a", PyArg.vint 2)] := by decide

/-- C9: `parse_kv_pairs` never fails — it is embedded as a total function
(the only fallible operation of the source, `int(v)`, is wrapped in
`try/except` and modelled by the total `pyInt`), and tokens that do not
match the `key=value` pattern are silently dropped:
`parse_kv_pairs "free text !!! k=v"` yields exactly `‹k: "v"›`. -/
theorem C9_permissive_parsing :
    parse_kv_pairs "free text !!! k=v" = [("k", PyArg.vstr "v")] := by decide

/-! ## Claim C10 (the weather tool bounds) -/

/-- The alert listing body is capped at `MAX_CHARS` characters. -/
lemma alertsBody_length_le (feats : List Feature) (limit inc : PyVal) :
    (alertsBody feats limit inc).length ≤ MAX_CHARS := by
  unfold alertsBody
  exact pySlice_length_le _ _

/-- A needle longer than the haystack is never a substring. -/
lemma containsSub_false_of_long (n : List Char) :
    ∀ hay : List Char, hay.length < n.length → containsSub n hay = false := by
  intro hay
  induction hay with
  | nil =>
    intro h
    cases n with
    | nil => simp at h
    | cons c cs => rfl
  | cons c cs ih =>
    intro h
    have hpre : n.isPrefixOf (c :: cs) = false := by
      by_contra hb
      have hp : n <+: c :: cs := List.isPrefixOf_iff_prefix.mp (by
        cases hx : n.isPrefixOf (c :: cs) with
        | true => rfl
        | false => exact absurd hx hb)
      have := hp.length_le
      omega
    have hlt : cs.length < n.length := by
      simp at h
      omega
    simp [containsSub, hpre, ih hlt]

/-- String length distributes over append. -/
lemma string_length_append (s t : String) : (s ++ t).length = s.length + t.length := by
  cases s with
  | mk a =>
    cases t with
    | mk b =>
      show (a ++ b).length = a.length + b.length
      exact List.length_append a b

/-- C10 counterexample: with a 3001-character event filter and a response
holding one non-matching alert, `get_alerts` returns the
no-matching-filter message, which embeds the filter verbatim: the output
has 3034 characters, exceeding the 3000-character cap the claim asserts
for every combination of arguments. -/
theorem C10_counterexample :
    MAX_CHARS <
      (get_alerts "CA" (some longZ) (PyVal.pint 5) (PyVal.pbool true)
        (some (some [⟨some ⟨some "Heat Advisory", some "Coast", none, none⟩⟩]))).length := by
  have hlenZ : (pyLower "Heat Advisory").data.length < (pyLower longZ).data.length := by
    show ("Heat Advisory".data.map Char.toLower).length <
      ((List.replicate 3001 'z').map Char.toLower).length
    rw [List.length_map, List.length_map, List.length_replicate]
    decide
  have hpred : pyContains (pyLower longZ) (pyLower "Heat Advisory") = false :=
    containsSub_false_of_long _ _ hlenZ
  have hmsg : get_alerts "CA" (some longZ) (PyVal.pint 5) (PyVal.pbool true)
      (some (some [⟨some ⟨some "Heat Advisory", some "Coast", none, none⟩⟩])) =
      "No matching alerts for filter '" ++ longZ ++ "'." := by
    have hq : ¬(longZ = "") := by
      intro h
      have h2 : longZ.length = 3001 := by
        show (List.replicate 3001 'z').length = 3001
        rw [List.length_replicate]
      rw [h] at h2
      exact absurd h2 (by decide)
    have hpred2 : pyContains (pyLower longZ)
        (pyLower (((some (⟨some "Heat Advisory", some "Coast", none, none⟩ : AlertProps)).getD
          emptyProps).event.getD "")) = false := hpred
    simp only [get_alerts, List.isEmpty_cons]
    rw [if_neg Bool.false_ne_true, if_pos hq]
    simp only [List.filter_cons, List.filter_nil]
    rw [hpred2]
    rfl
  rw [hmsg, string_length_append, string_length_append]
  have hl : longZ.length = 3001 := by
    show (List.replicate 3001 'z').length = 3001
    rw [List.length_replicate]
  rw [hl]
  decide

/-- C10 (amended): the `limit` argument is coerced with `int()` and
clamped into `[1, MAX_ITEMS]` (an unparseable limit falling back to the
passed default, 5, which lies in that range), so the listing holds at most
20 alert lines; and every return of `get_alerts` is at most 3000
characters except the no-matching-filter message, which embeds the
event filter verbatim and may exceed the cap. -/
theorem C10_amended_bounds :
    (∀ v : PyVal, 1 ≤ _to_int v 5 ∧ _to_int v 5 ≤ MAX_ITEMS) ∧
    (∀ v : PyVal, pyIntCast v = none → _to_int v 5 = 5) ∧
    (∀ (v : PyVal) (n : Int), pyIntCast v = some n →
      _to_int v 5 = max 1 (min n MAX_ITEMS)) ∧
    (∀ (feats : List Feature) (limit include_expires : PyVal),
      (alertLines feats limit include_expires).length ≤ 20) ∧
    (∀ (state : String) (event_filter : Option String) (limit include_expires : PyVal)
        (resp : Option (Option (List Feature))),
      (get_alerts state event_filter limit include_expires resp).length ≤ MAX_CHARS ∨
      (∃ q, event_filter = some q ∧
        get_alerts state event_filter limit include_expires resp =
          "No matching alerts for filter '" ++ q ++ "'.")) := by
  have hbounds : ∀ v : PyVal, 1 ≤ _to_int v 5 ∧ _to_int v 5 ≤ MAX_ITEMS := by
    intro v
    cases hc : pyIntCast v with
    | none =>
      simp only [_to_int, hc]
      exact ⟨by decide, by decide⟩
    | some n =>
      simp only [_to_int, hc]
      refine ⟨le_max_left 1 _, max_le (by decide) (min_le_right n MAX_ITEMS)⟩
  have hlines : ∀ (feats : List Feature) (limit include_expires : PyVal),
      (alertLines feats limit include_expires).length ≤ 20 := by
    intro feats limit include_expires
    unfold alertLines
    rw [List.length_map, List.length_take]
    have h20 : _to_int limit 5 ≤ MAX_ITEMS := (hbounds limit).2
    have h20n : (_to_int limit 5).toNat ≤ 20 := by
      have : MAX_ITEMS = (20 : Int) := rfl
      rw [this] at h20
      omega
    exact le_trans (min_le_left _ _) h20n
  refine ⟨hbounds, ?_, ?_, hlines, ?_⟩
  · intro v h
    simp only [_to_int, h]
  · intro v n h
    simp only [_to_int, h]
  · intro state event_filter limit include_expires resp
    cases resp with
    | none =>
      left
      show ("Unable to fetch alerts or no alerts found." : String).length ≤ MAX_CHARS
      decide
    | some r =>
      cases r with
      | none =>
        left
        show ("Unable to fetch alerts or no alerts found." : String).length ≤ MAX_CHARS
        decide
      | some feats0 =>
        cases feats0 with
        | nil =>
          left
          show ("No active alerts for this state." : String).length ≤ MAX_CHARS
          decide
        | cons f fs =>
          cases event_filter with
          | none =>
            left
            show (alertsBody (f :: fs) limit include_expires).length ≤ MAX_CHARS
            exact alertsBody_length_le _ _ _
          | some q =>
            have hga : get_alerts state (some q) limit include_expires
                (some (some (f :: fs))) =
                (if q ≠ "" then
                  (if (List.filter (fun f => pyContains (pyLower q)
                        (pyLower ((f.properties.getD emptyProps).event.getD "")))
                        (f :: fs)).isEmpty = true then
                    "No matching alerts for filter '" ++ q ++ "'."
                  else
                    alertsBody (List.filter (fun f => pyContains (pyLower q)
                        (pyLower ((f.properties.getD emptyProps).event.getD "")))
                        (f :: fs))
                      limit include_expires)
                else alertsBody (f :: fs) limit include_expires) := rfl
            rw [hga]
            by_cases hq : q = ""
            · rw [if_neg (by simp [hq])]
              exact Or.inl (alertsBody_length_le _ _ _)
            · rw [if_pos hq]
              by_cases hfil : ((f :: fs).filter (fun f =>
                  pyContains (pyLower q)
                    (pyLower ((f.properties.getD emptyProps).event.getD "")))).isEmpty = true
              · rw [if_pos hfil]
                exact Or.inr ⟨q, rfl, rfl⟩
              · rw [if_neg hfil]
                exact Or.inl (alertsBody_length_le _ _ _)

/-- C10 witness: the coercion parts applied to the concrete limits
`"abc"` (unparseable, default 5) and `"40"` (parsed and clamped). -/
theorem C10_amended_witness :
    _to_int (PyVal.pstr "abc") 5 = 5 ∧
    _to_int (PyVal.pstr "40") 5 = max 1 (min 40 MAX_ITEMS) :=
  ⟨C10_amended_bounds.2.1 (PyVal.pstr "abc") rfl,
   C10_amended_bounds.2.2.1 (PyVal.pstr "40") 40 rfl⟩
